import Mathlib

/-!
Shallow embedding of `backend/app.py` (Flask application factory) and proofs
about its registration pipeline.

Modelling conventions:
* A Python `dict` keyed by strings is an insertion-ordered association list
  `List (String × α)`; assignment `d[k] = v` is `dinsert` (replace the value at
  an existing key, else append), lookup is `dget`, and `k in d` is `dmem`.
* Python classes that the factory only moves around (ORM model classes, Click
  command objects, extension instances) are opaque identities, here `Nat`.
* `sys.exit(1)` is an `exitCode = some 1` in the outcome of the CLI stage;
  `logger.error` appends to a log list.
-/

/-- Python dict assignment `d[k] = v`: replace the value stored at `k` if the
key is present (keeping its position), otherwise append the new binding. -/
def dinsert {α : Type} : List (String × α) → String → α → List (String × α)
  | [], k, v => [(k, v)]
  | p :: rest, k, v => if p.1 == k then (k, v) :: rest else p :: dinsert rest k v

/-- Python dict lookup `d[k]` (as an `Option`): the value at the first binding
whose key is `k`. -/
def dget {α : Type} : List (String × α) → String → Option α
  | [], _ => none
  | p :: rest, k => if p.1 == k then some p.2 else dget rest k

/-- Python membership test `k in d`. -/
def dmem {α : Type} (d : List (String × α)) (k : String) : Bool :=
  (dget d k).isSome

/-- Python `d.update(l)` / a sequence of assignments: fold `dinsert` over the
bindings of `l` in order, starting from `d`. -/
def dupdate {α : Type} (d l : List (String × α)) : List (String × α) :=
  l.foldl (fun a p => dinsert a p.1 p.2) d

/-- A Click command object (`click.Group` / `click.Command`); the factory only
stores and compares these, so an opaque identity suffices. -/
abbrev Command := Nat

/-- An extension instance (e.g. the database or CSRF extension); `init_app` is
the only call made on it, so an opaque identity suffices. -/
abbrev Extension := Nat

/-- An ORM model class; the registrars only store these by name. -/
abbrev ModelClass := Nat

/-- A `flask.Blueprint` as the registrar sees it: its name and its declared
`url_prefix` (`None` in Python is `none`). -/
structure Blueprint where
  name : String
  urlPrefix : Option String
deriving DecidableEq

/-- A serializer class: its own class name and the name of its target model,
`serializer_class.Meta.model.__name__`. -/
structure SerializerClass where
  className : String
  targetModelName : String
deriving DecidableEq

/-- A bundle descriptor as produced by `backend.magic.get_bundles`: the
attributes `backend/app.py` reads from each bundle. -/
structure Bundle where
  name : String
  module_name : String
  blueprints : List Blueprint
  models : List (String × ModelClass)
  serializers : List (String × SerializerClass)
  has_command_group : Bool
  command_group_name : String
  command_group : Command
deriving DecidableEq

/-- The config object (`BaseConfig` subclass from `backend/config.py`, not
part of the translated source): the attributes `configure_app` and
`register_blueprints` read from it. -/
structure Config where
  projectRoot : String
  strictSlashes : Option Bool

/-- The Flask session proxy, as far as `enable_session_timeout` touches it. -/
structure Session where
  permanent : Bool
  modified : Bool
deriving DecidableEq

/-- An outbound response, as far as `set_csrf_cookie` touches it. -/
structure Response where
  cookies : List (String × String)
deriving DecidableEq

/-- The bootstrap stages of `_create_app`, in the order its body names them;
each embedded stage function appends its tag to the application's trace. -/
inductive Stage where
  | populateBundles
  | configure
  | extensions
  | blueprints
  | models
  | serializers
  | cli
  | shellContext
deriving DecidableEq

/-- The `Flask` subclass defined in `backend/app.py` plus the per-instance
state the factory writes into it. `cliCommands` is `app.cli.commands` (Click's
name-to-command mapping), `registeredBlueprints` records each
`app.register_blueprint(blueprint, url_prefix=...)` call, and
`initializedExtensions` records each `extension.init_app(app)` call in order.
`trace` is instrumentation recording which stage functions ran, in order. -/
structure Flask where
  bundles : List Bundle := []
  models : List (String × ModelClass) := []
  serializers : List (String × SerializerClass) := []
  cliCommands : List (String × Command) := []
  registeredBlueprints : List (Blueprint × String) := []
  urlMapStrictSlashes : Bool := true
  configStrictSlashes : Option Bool := none
  configAlembicVersionLocations : List (String × String) := []
  jinjaExtensions : List String := []
  initializedExtensions : List Extension := []
  beforeRequestHooks : List (Session → Session) := []
  afterRequestHooks : List (String → Response → Response) := []
  shellContextExtensions : Option (List (String × Extension)) := none
  trace : List Stage := []

/-- A fresh `Flask(__name__, **kwargs)` instance: the class attributes
`bundles = {}`, `models = {}`, `serializers = {}` are empty, and Flask's per-
app `app.cli` group starts with no commands. -/
def Flask_init : Flask := {}

/-- Python `module_name.replace('.', os.sep)` with the POSIX separator. -/
def dotToSlash (s : String) : String :=
  String.mk (s.data.map (fun ch => if ch == '.' then '/' else ch))

/-- The migration folder `configure_app` derives for a bundle:
`os.path.join(PROJECT_ROOT, bundle.module_name.replace('.', os.sep),
'migrations')`. -/
def migrationPath (projectRoot : String) (b : Bundle) : String :=
  projectRoot ++ "/" ++ dotToSlash b.module_name ++ "/migrations"

/-- The `before_request` hook registered by `configure_app`: marks the session
permanent (so `PERMANENT_SESSION_LIFETIME` applies) and modified (resetting
the session timer on every request). -/
def enable_session_timeout (s : Session) : Session :=
  { s with permanent := true, modified := true }

/-- Truthiness of a response object in `if response:`. A Werkzeug response
object defines neither `__bool__` nor `__len__`, so as a plain object it is
always truthy. -/
def responseTruthy (_ : Response) : Bool := true

/-- The `after_request` hook registered by `configure_app`. `tok` is the value
`generate_csrf()` returns for this invocation (token generation itself is
delegated to `flask_wtf`). -/
def set_csrf_cookie (tok : String) (r : Response) : Response :=
  if responseTruthy r then { r with cookies := dinsert r.cookies "csrf_token" tok }
  else r

/-- Embedding of `configure_app(app, config_object)`: computes the per-bundle
Alembic version locations from the already-populated bundle list, merges the
config object into `app.config`, adds the jinja extension, and registers the
two request-cycle hooks. -/
def configure_app (app : Flask) (config_object : Config) : Flask :=
  { app with
    configAlembicVersionLocations :=
      app.bundles.map (fun b => (b.name, migrationPath config_object.projectRoot b)),
    configStrictSlashes := config_object.strictSlashes,
    jinjaExtensions := app.jinjaExtensions ++ ["jinja2_time.TimeExtension"],
    beforeRequestHooks := app.beforeRequestHooks ++ [enable_session_timeout],
    afterRequestHooks := app.afterRequestHooks ++ [set_csrf_cookie],
    trace := app.trace ++ [Stage.configure] }

/-- Embedding of `register_extensions(app, extensions)`: calls
`extension.init_app(app)` for each extension, in dict iteration order; the
embedding records each initialization. -/
def register_extensions (app : Flask) (extensions : List (String × Extension)) :
    Flask :=
  { app with
    initializedExtensions := app.initializedExtensions ++ extensions.map Prod.snd,
    trace := app.trace ++ [Stage.extensions] }

/-- Python `(blueprint.url_prefix or '')`: the `or` falls through to `''` when
the attribute is `None` (or the empty, hence falsy, string). -/
def pyOrEmpty : Option String → String
  | none => ""
  | some s => if s == "" then "" else s

/-- Python `str.rstrip('/')`: drop every trailing `'/'`. -/
def rstripSlash (s : String) : String :=
  String.mk ((s.data.reverse.dropWhile (fun ch => ch == '/')).reverse)

/-- The effective prefix a blueprint is attached with: `(blueprint.url_prefix
or '').rstrip('/')`. -/
def effectiveUrlPrefix (p : Option String) : String :=
  rstripSlash (pyOrEmpty p)

/-- The Flask call `app.register_blueprint(blueprint, url_prefix=url_prefix)`,
recorded as attaching the blueprint under the given effective prefix. -/
def app_register_blueprint (app : Flask) (bp : Blueprint) (pre : String) :
    Flask :=
  { app with registeredBlueprints := app.registeredBlueprints ++ [(bp, pre)] }

/-- Embedding of `register_blueprints(app)`: disables strict slashes unless
configuration opts in, then attaches every bundle's blueprints with their
trailing-slash stripped prefixes, in bundle iteration order. -/
def register_blueprints (app : Flask) : Flask :=
  let app :=
    if (app.configStrictSlashes.getD false) = false then
      { app with urlMapStrictSlashes := false }
    else app
  let app := { app with trace := app.trace ++ [Stage.blueprints] }
  app.bundles.foldl
    (fun a b =>
      b.blueprints.foldl
        (fun a bp => app_register_blueprint a bp (effectiveUrlPrefix bp.urlPrefix))
        a)
    app

/-- Embedding of `register_models(app)`: builds a fresh dict mapping each
declared model name to its class, iterating all bundles and their `(name,
class)` pairs. -/
def register_models (app : Flask) : Flask :=
  { app with
    models :=
      app.bundles.foldl
        (fun ms b => b.models.foldl (fun ms p => dinsert ms p.1 p.2) ms) [],
    trace := app.trace ++ [Stage.models] }

/-- Embedding of `register_serializers(app)`: builds a fresh dict keyed by
each serializer's target model name `serializer_class.Meta.model.__name__`;
the pair's own first component (the serializer's registration name) is
discarded (`for _, serializer_class in bundle.serializers`). -/
def register_serializers (app : Flask) : Flask :=
  { app with
    serializers :=
      app.bundles.foldl
        (fun ss b =>
          b.serializers.foldl
            (fun ss p => dinsert ss p.2.targetModelName p.2) ss) [],
    trace := app.trace ++ [Stage.serializers] }

/-- The message `logger.error` receives on a CLI command name collision:
`'Command name conflict: "%s" is taken.' % name`. -/
def cliErrMsg (name : String) : String :=
  "Command name conflict: \"" ++ name ++ "\" is taken."

/-- The outcome of a stage that may call `sys.exit`: the application state so
far, the logger output, and `some code` when the process exited. -/
structure CliOutcome where
  app : Flask
  log : List String
  exitCode : Option Nat

/-- The ordered command sequence `register_cli_commands` builds:
`list(get_commands())` (the top-level commands, here a parameter since
`backend.magic.get_commands` is outside the translated file) followed by the
command group of each bundle that declares one. -/
def collectCommands (topLevel : List (String × Command)) (bundles : List Bundle) :
    List (String × Command) :=
  topLevel ++
    (bundles.filter (fun b => b.has_command_group)).map
      (fun b => (b.command_group_name, b.command_group))

/-- The `for name, command in commands:` loop of `register_cli_commands`: if
`name in app.cli.commands`, log the conflict and `sys.exit(1)`; otherwise
`app.cli.add_command(command)` registers the command under that name and the
loop continues. -/
def addCommandsLoop (app : Flask) : List (String × Command) → CliOutcome
  | [] => { app := app, log := [], exitCode := none }
  | (name, command) :: rest =>
    if dmem app.cliCommands name then
      { app := app, log := [cliErrMsg name], exitCode := some 1 }
    else
      addCommandsLoop
        { app with cliCommands := dinsert app.cliCommands name command } rest

/-- Embedding of `register_cli_commands(app)`. -/
def register_cli_commands (topLevel : List (String × Command)) (app : Flask) :
    CliOutcome :=
  addCommandsLoop { app with trace := app.trace ++ [Stage.cli] }
    (collectCommands topLevel app.bundles)

/-- A shell-context entry: an extension instance, a model class, or a
serializer class. -/
inductive ShellValue where
  | ext (e : Extension)
  | model (c : ModelClass)
  | ser (s : SerializerClass)
deriving DecidableEq

/-- The `shell_context` closure body: a fresh dict updated with `extensions`,
then `app.models`, then `app.serializers`. `extensions` is the value the
closure holds from registration time; `app` is the application at invocation
time (the closure reads `app.models` / `app.serializers` live). -/
def shell_context (extensions : List (String × Extension)) (app : Flask) :
    List (String × ShellValue) :=
  let ctx : List (String × ShellValue) := []
  let ctx := dupdate ctx (extensions.map (fun p => (p.1, ShellValue.ext p.2)))
  let ctx := dupdate ctx (app.models.map (fun p => (p.1, ShellValue.model p.2)))
  let ctx := dupdate ctx (app.serializers.map (fun p => (p.1, ShellValue.ser p.2)))
  ctx

/-- Embedding of `register_shell_context(app, extensions)`: registers the
producer with the application; the embedding stores the extensions value the
closure captures. -/
def register_shell_context (app : Flask) (extensions : List (String × Extension)) :
    Flask :=
  { app with
    shellContextExtensions := some extensions,
    trace := app.trace ++ [Stage.shellContext] }

/-- Embedding of `_create_app(config_object, **kwargs)`: the fixed bootstrap
sequence. `bundles` is `dict(get_bundles())`, `extensions` /
`deferred_extensions` are `dict(get_extensions(EXTENSIONS))` /
`dict(get_extensions(DEFERRED_EXTENSIONS))` and `topLevel` is
`list(get_commands())`; those four producers live in `backend.magic` /
`backend.config`, outside the translated file, so their results are parameters
here. A `sys.exit` in the CLI stage stops the sequence. -/
def _create_app (config_object : Config) (bundles : List Bundle)
    (extensions deferred_extensions : List (String × Extension))
    (topLevel : List (String × Command)) : CliOutcome :=
  let app := { Flask_init with bundles := bundles, trace := [Stage.populateBundles] }
  let app := configure_app app config_object
  let app := register_extensions app extensions
  let app := register_blueprints app
  let app := register_models app
  let app := register_serializers app
  let app := register_extensions app deferred_extensions
  let merged := dupdate extensions deferred_extensions
  let out := register_cli_commands topLevel app
  match out.exitCode with
  | some code => { app := out.app, log := out.log, exitCode := some code }
  | none =>
    { app := register_shell_context out.app merged, log := out.log,
      exitCode := none }

/-- Flask's request cycle runs every registered `before_request` function, in
registration order, on each inbound request. -/
def handle_request (app : Flask) (s : Session) : Session :=
  app.beforeRequestHooks.foldl (fun s h => h s) s

/-- Flask's request cycle runs every registered `after_request` function on
each outbound response, in reverse registration order; `tok` is the fresh
`generate_csrf()` value available during this response. -/
def finalize_response (app : Flask) (tok : String) (r : Response) : Response :=
  app.afterRequestHooks.reverse.foldl (fun r h => h tok r) r

/-- All `(name, class)` model pairs of a bundle list, in iteration order. -/
def allModelPairs : List Bundle → List (String × ModelClass)
  | [] => []
  | b :: rest => b.models ++ allModelPairs rest

/-- All `(name, class)` serializer pairs of a bundle list, in iteration order.
-/
def allSerializerPairs : List Bundle → List (String × SerializerClass)
  | [] => []
  | b :: rest => b.serializers ++ allSerializerPairs rest

/-- All blueprints of a bundle list, in iteration order. -/
def allBlueprints : List Bundle → List Blueprint
  | [] => []
  | b :: rest => b.blueprints ++ allBlueprints rest

/-- The first CLI name collision, if any, the loop of `register_cli_commands`
runs into: starting from the registered-command dict `d`, scan the collected
`(name, command)` sequence; return the accepted prefix and the colliding name,
or `none` when every name is fresh. -/
def findCollision (d : List (String × Command)) :
    List (String × Command) → Option (List (String × Command) × String)
  | [] => none
  | (name, command) :: rest =>
    if dmem d name then some ([], name)
    else
      (findCollision (dinsert d name command) rest).map
        (fun pc => ((name, command) :: pc.1, pc.2))

/-- A concrete config object for concrete runs. -/
def cfg0 : Config := { projectRoot := "/project", strictSlashes := none }

/-- A bundle declaring model `"M"` as class `1`. -/
def bundleM1 : Bundle :=
  { name := "auth", module_name := "backend.auth", blueprints := [],
    models := [("M", 1)], serializers := [], has_command_group := false,
    command_group_name := "auth", command_group := 11 }

/-- A later-iterated bundle declaring the same model name `"M"` as class `2`.
-/
def bundleM2 : Bundle :=
  { name := "blog", module_name := "backend.blog", blueprints := [],
    models := [("M", 2)], serializers := [], has_command_group := false,
    command_group_name := "blog", command_group := 12 }

/-- A serializer class named `FooSerializer` whose `Meta.model.__name__` is
`"Bar"`. -/
def fooSerializer : SerializerClass :=
  { className := "FooSerializer", targetModelName := "Bar" }

/-- A bundle declaring `fooSerializer` (registered in the bundle under its own
class name, as `backend.magic` does). -/
def bundleSer : Bundle :=
  { name := "api", module_name := "backend.api", blueprints := [],
    models := [], serializers := [("FooSerializer", fooSerializer)],
    has_command_group := false, command_group_name := "api",
    command_group := 13 }

/-- A bundle whose command group is named `"seed"`. -/
def bundleCmdA : Bundle :=
  { name := "a", module_name := "backend.a", blueprints := [], models := [],
    serializers := [], has_command_group := true,
    command_group_name := "seed", command_group := 21 }

/-- Another bundle whose command group is also named `"seed"`. -/
def bundleCmdB : Bundle :=
  { name := "b", module_name := "backend.b", blueprints := [], models := [],
    serializers := [], has_command_group := true,
    command_group_name := "seed", command_group := 22 }

/-- A bundle whose command group is named `"tasks"`. -/
def bundleCmdC : Bundle :=
  { name := "c", module_name := "backend.c", blueprints := [], models := [],
    serializers := [], has_command_group := true,
    command_group_name := "tasks", command_group := 23 }

/-- A blueprint declared with URL prefix `"/api/"`. -/
def bpApi : Blueprint := { name := "api", urlPrefix := some "/api/" }

/-- A bundle declaring the `bpApi` blueprint. -/
def bundleBp : Bundle :=
  { name := "api", module_name := "backend.api", blueprints := [bpApi],
    models := [], serializers := [], has_command_group := false,
    command_group_name := "api", command_group := 14 }

/-- The key-value pair the serializer registrar actually writes for a declared
`(name, serializer_class)` pair: keyed by the target model's name. -/
def serKey (p : String × SerializerClass) : String × SerializerClass :=
  (p.2.targetModelName, p.2)

/-- The application state `_create_app` has built when it reaches
`register_cli_commands` (proved equal to the staged composition below). -/
def preCliApp (cfg : Config) (bundles : List Bundle)
    (exts dexts : List (String × Extension)) : Flask :=
  { bundles := bundles,
    models := dupdate [] (allModelPairs bundles),
    serializers := dupdate [] ((allSerializerPairs bundles).map serKey),
    cliCommands := [],
    registeredBlueprints :=
      (allBlueprints bundles).map (fun bp => (bp, effectiveUrlPrefix bp.urlPrefix)),
    urlMapStrictSlashes :=
      if (cfg.strictSlashes.getD false) = false then false else true,
    configStrictSlashes := cfg.strictSlashes,
    configAlembicVersionLocations :=
      bundles.map (fun b => (b.name, migrationPath cfg.projectRoot b)),
    jinjaExtensions := ["jinja2_time.TimeExtension"],
    initializedExtensions := exts.map Prod.snd ++ dexts.map Prod.snd,
    beforeRequestHooks := [enable_session_timeout],
    afterRequestHooks := [set_csrf_cookie],
    shellContextExtensions := none,
    trace := [Stage.populateBundles, Stage.configure, Stage.extensions,
      Stage.blueprints, Stage.models, Stage.serializers, Stage.extensions] }

/-- A serializer class targeting model `"T"`. -/
def serA : SerializerClass := { className := "ASerializer", targetModelName := "T" }

/-- Another serializer class targeting the same model `"T"`. -/
def serB : SerializerClass := { className := "BSerializer", targetModelName := "T" }

/-- A bundle declaring `serA`. -/
def bundleSer1 : Bundle :=
  { name := "s1", module_name := "backend.s1", blueprints := [], models := [],
    serializers := [("ASerializer", serA)], has_command_group := false,
    command_group_name := "s1", command_group := 31 }

/-- A later-iterated bundle declaring `serB`, colliding on target `"T"`. -/
def bundleSer2 : Bundle :=
  { name := "s2", module_name := "backend.s2", blueprints := [], models := [],
    serializers := [("BSerializer", serB)], has_command_group := false,
    command_group_name := "s2", command_group := 32 }

/-- An app whose bundles collide on model name `"M"`. -/
def appMM : Flask := { bundles := [bundleM1, bundleM2] }

/-- An app with the single serializer-declaring bundle. -/
def appSer : Flask := { bundles := [bundleSer] }

/-- An app whose bundles collide on serializer target `"T"`. -/
def appSer2 : Flask := { bundles := [bundleSer1, bundleSer2] }

/-- An app whose bundles collide on CLI command name `"seed"`. -/
def appC1 : Flask := { bundles := [bundleCmdA, bundleCmdB] }

/-- An app whose bundles declare distinct CLI command names. -/
def appC6 : Flask := { bundles := [bundleCmdA, bundleCmdC] }

/-- An app on which a command named `"run"` is already registered before
`register_cli_commands` runs (a framework built-in). -/
def appRun : Flask := { cliCommands := [("run", 90)] }

/-- An app with one blueprint-declaring bundle. -/
def appBp : Flask := { bundles := [bundleBp] }

/-- An app with models and serializers sharing the key `"M"`, for the shell
context override order. -/
def appShell : Flask :=
  { models := [("db", 7), ("M", 1)], serializers := [("M", serA)] }

/-- A one-extension mapping whose key `"db"` also names a model in `appShell`.
-/
def exts0 : List (String × Extension) := [("db", 100)]

/-- A fresh session. -/
def sess0 : Session := { permanent := false, modified := false }

/-- A response with no cookies yet. -/
def resp0 : Response := { cookies := [] }

theorem dget_dinsert {α : Type} (d : List (String × α)) (k : String) (v : α)
    (q : String) :
    dget (dinsert d k v) q = if k == q then some v else dget d q := by
  induction d with
  | nil => simp [dinsert, dget]
  | cons p rest ih =>
    by_cases h : p.1 = k
    · have hb : (p.1 == k) = true := beq_iff_eq.mpr h
      by_cases hk : k = q
      · subst hk
        simp [dinsert, dget, hb]
      · have h2 : (p.1 == q) = false :=
          beq_eq_false_iff_ne.mpr (fun he => hk (h.symm.trans he))
        have hkq : (k == q) = false := beq_eq_false_iff_ne.mpr hk
        simp [dinsert, dget, hb, h2, hkq]
    · have hb : (p.1 == k) = false := beq_eq_false_iff_ne.mpr h
      by_cases hpq : p.1 = q
      · have hq : (p.1 == q) = true := beq_iff_eq.mpr hpq
        have hkq : (k == q) = false :=
          beq_eq_false_iff_ne.mpr (fun he => h (hpq.trans he.symm))
        simp [dinsert, dget, hb, hq, hkq]
      · have hq : (p.1 == q) = false := beq_eq_false_iff_ne.mpr hpq
        simp [dinsert, dget, hb, hq, ih]

theorem dupdate_nil {α : Type} (d : List (String × α)) : dupdate d [] = d := rfl

theorem dupdate_cons {α : Type} (d : List (String × α)) (p : String × α)
    (l : List (String × α)) :
    dupdate d (p :: l) = dupdate (dinsert d p.1 p.2) l := rfl

theorem dupdate_append {α : Type} (d l₁ l₂ : List (String × α)) :
    dupdate d (l₁ ++ l₂) = dupdate (dupdate d l₁) l₂ :=
  List.foldl_append _ _ _ _

theorem dget_dupdate_of_not_mem {α : Type} (l : List (String × α))
    (d : List (String × α)) (k : String) (h : ∀ p ∈ l, p.1 ≠ k) :
    dget (dupdate d l) k = dget d k := by
  induction l generalizing d with
  | nil => rfl
  | cons p rest ih =>
    rw [dupdate_cons, ih _ (fun q hq => h q (List.mem_cons_of_mem _ hq)),
      dget_dinsert]
    have hb : (p.1 == k) = false :=
      beq_eq_false_iff_ne.mpr (h p (List.mem_cons_self _ _))
    simp [hb]

/-- Lookup after writing a decomposed sequence of bindings whose suffix after
`(k, v)` never writes `k` again: the last writer `v` wins. -/
theorem dget_dupdate_decomp {α : Type} (d l₁ l₂ : List (String × α))
    (k : String) (v : α) (h : ∀ p ∈ l₂, p.1 ≠ k) :
    dget (dupdate d (l₁ ++ (k, v) :: l₂)) k = some v := by
  rw [dupdate_append, dupdate_cons, dget_dupdate_of_not_mem _ _ _ h,
    dget_dinsert]
  simp

theorem dinsert_of_not_mem {α : Type} (d : List (String × α)) (k : String)
    (v : α) (h : dmem d k = false) : dinsert d k v = d ++ [(k, v)] := by
  induction d with
  | nil => rfl
  | cons p rest ih =>
    by_cases hp : p.1 = k
    · exfalso
      simp [dmem, dget, hp] at h
    · have hb : (p.1 == k) = false := beq_eq_false_iff_ne.mpr hp
      have h2 : dmem rest k = false := by
        simpa [dmem, dget, hb] using h
      simp [dinsert, hb, ih h2]

theorem dmem_append {α : Type} (d₁ d₂ : List (String × α)) (k : String) :
    dmem (d₁ ++ d₂) k = (dmem d₁ k || dmem d₂ k) := by
  induction d₁ with
  | nil => simp [dmem, dget]
  | cons p rest ih =>
    by_cases hp : p.1 = k
    · simp [dmem, dget, hp]
    · have hb : (p.1 == k) = false := by simp [hp]
      simp [dmem, dget, hb] at ih ⊢
      exact ih

/-- Writing a batch of bindings with pairwise-distinct keys, none already
present, is plain concatenation. -/
theorem dupdate_eq_append {α : Type} (l d : List (String × α))
    (hnd : (l.map Prod.fst).Nodup) (hdisj : ∀ p ∈ l, dmem d p.1 = false) :
    dupdate d l = d ++ l := by
  induction l generalizing d with
  | nil => simp [dupdate_nil]
  | cons p rest ih =>
    rw [dupdate_cons,
      dinsert_of_not_mem _ _ _ (hdisj p (List.mem_cons_self _ _))]
    rw [List.map_cons, List.nodup_cons] at hnd
    rw [ih (d ++ [(p.1, p.2)]) hnd.2]
    · simp
    · intro q hq
      rw [dmem_append]
      have h1 : dmem d q.1 = false := hdisj q (List.mem_cons_of_mem _ hq)
      have h2 : dmem [(p.1, p.2)] q.1 = false := by
        have hne : q.1 ≠ p.1 := by
          intro he
          exact hnd.1 (he ▸ List.mem_map_of_mem Prod.fst hq)
        have hb : (p.1 == q.1) = false :=
          beq_eq_false_iff_ne.mpr (fun he => hne he.symm)
        simp [dmem, dget, hb]
      simp [h1, h2]

theorem dget_eq_none_of_not_mem_keys {α : Type} (l : List (String × α))
    (k : String) (h : k ∉ l.map Prod.fst) : dget l k = none := by
  induction l with
  | nil => rfl
  | cons p rest ih =>
    rw [List.map_cons] at h
    have h1 : p.1 ≠ k := by
      rintro rfl
      exact h (List.mem_cons_self _ _)
    have h2 : k ∉ List.map Prod.fst rest := fun hm => h (List.mem_cons_of_mem _ hm)
    have hb : (p.1 == k) = false := beq_eq_false_iff_ne.mpr h1
    simp [dget, hb, ih h2]

/-- Batched writes with pairwise-distinct keys behave like a two-layer lookup:
the batch first, the original dict as fallback. -/
theorem dget_dupdate_nodup {α : Type} (l d : List (String × α)) (k : String)
    (h : (l.map Prod.fst).Nodup) :
    dget (dupdate d l) k =
      match dget l k with
      | some v => some v
      | none => dget d k := by
  induction l generalizing d with
  | nil => simp [dupdate_nil, dget]
  | cons p rest ih =>
    rw [List.map_cons, List.nodup_cons] at h
    rw [dupdate_cons, ih _ h.2]
    by_cases hk : p.1 = k
    · have : dget rest k = none :=
        dget_eq_none_of_not_mem_keys _ _ (hk ▸ h.1)
      simp [dget, this, hk, dget_dinsert]
    · have hb : (p.1 == k) = false := by simp [hk]
      simp [dget, hb, dget_dinsert]

theorem dget_map {α β : Type} (l : List (String × α)) (f : α → β)
    (k : String) :
    dget (l.map (fun p => (p.1, f p.2))) k = (dget l k).map f := by
  induction l with
  | nil => rfl
  | cons p rest ih =>
    by_cases hp : p.1 = k
    · simp [dget, hp]
    · have hb : (p.1 == k) = false := by simp [hp]
      simp [dget, hb, ih]

theorem dmem_dinsert {α : Type} (d : List (String × α)) (k : String) (v : α)
    (q : String) : dmem (dinsert d k v) q = (k == q || dmem d q) := by
  by_cases hk : k = q
  · simp [dmem, dget_dinsert, hk]
  · have hb : (k == q) = false := beq_eq_false_iff_ne.mpr hk
    simp [dmem, dget_dinsert, hb]

/-- The model registrar's nested loop is a batched write of all model pairs.
-/
theorem models_foldl (bundles : List Bundle) (d : List (String × ModelClass)) :
    bundles.foldl
      (fun ms b => b.models.foldl (fun ms p => dinsert ms p.1 p.2) ms) d =
      dupdate d (allModelPairs bundles) := by
  induction bundles generalizing d with
  | nil => rfl
  | cons b rest ih =>
    rw [List.foldl_cons, ih, allModelPairs, dupdate_append]
    rfl

theorem serializers_inner_foldl (l : List (String × SerializerClass))
    (d : List (String × SerializerClass)) :
    l.foldl (fun ss p => dinsert ss p.2.targetModelName p.2) d =
      dupdate d (l.map serKey) := by
  induction l generalizing d with
  | nil => rfl
  | cons p rest ih =>
    rw [List.foldl_cons, ih]
    rfl

/-- The serializer registrar's nested loop is a batched write of all
serializer pairs, re-keyed by target model name. -/
theorem serializers_foldl (bundles : List Bundle)
    (d : List (String × SerializerClass)) :
    bundles.foldl
      (fun ss b =>
        b.serializers.foldl (fun ss p => dinsert ss p.2.targetModelName p.2) ss)
      d = dupdate d ((allSerializerPairs bundles).map serKey) := by
  induction bundles generalizing d with
  | nil => rfl
  | cons b rest ih =>
    rw [List.foldl_cons, serializers_inner_foldl, ih, allSerializerPairs,
      List.map_append, dupdate_append]

theorem register_models_eq (app : Flask) :
    register_models app =
      { app with
        models := dupdate [] (allModelPairs app.bundles),
        trace := app.trace ++ [Stage.models] } := by
  rw [register_models, models_foldl]

theorem register_serializers_eq (app : Flask) :
    register_serializers app =
      { app with
        serializers := dupdate [] ((allSerializerPairs app.bundles).map serKey),
        trace := app.trace ++ [Stage.serializers] } := by
  rw [register_serializers, serializers_foldl]

/-- What one bundle's blueprint loop appends to the attachment record. -/
theorem blueprints_inner_foldl (bps : List Blueprint) (a : Flask) :
    bps.foldl
      (fun a bp => app_register_blueprint a bp (effectiveUrlPrefix bp.urlPrefix))
      a =
      { a with
        registeredBlueprints := a.registeredBlueprints ++
          bps.map (fun bp => (bp, effectiveUrlPrefix bp.urlPrefix)) } := by
  induction bps generalizing a with
  | nil => simp
  | cons bp rest ih =>
    rw [List.foldl_cons, ih]
    simp [app_register_blueprint]

theorem blueprints_outer_foldl (bundles : List Bundle) (a : Flask) :
    bundles.foldl
      (fun a b =>
        b.blueprints.foldl
          (fun a bp =>
            app_register_blueprint a bp (effectiveUrlPrefix bp.urlPrefix)) a)
      a =
      { a with
        registeredBlueprints := a.registeredBlueprints ++
          (allBlueprints bundles).map
            (fun bp => (bp, effectiveUrlPrefix bp.urlPrefix)) } := by
  induction bundles generalizing a with
  | nil => simp [allBlueprints]
  | cons b rest ih =>
    rw [List.foldl_cons, blueprints_inner_foldl, ih, allBlueprints,
      List.map_append]
    simp

theorem register_blueprints_eq (app : Flask) :
    register_blueprints app =
      { app with
        urlMapStrictSlashes :=
          if (app.configStrictSlashes.getD false) = false then false
          else app.urlMapStrictSlashes,
        registeredBlueprints := app.registeredBlueprints ++
          (allBlueprints app.bundles).map
            (fun bp => (bp, effectiveUrlPrefix bp.urlPrefix)),
        trace := app.trace ++ [Stage.blueprints] } := by
  by_cases hc : (app.configStrictSlashes.getD false) = false
  · simp [register_blueprints, hc, blueprints_outer_foldl]
  · simp [register_blueprints, hc, blueprints_outer_foldl]

/-- Characterization of the CLI registration loop: it either accepts the whole
sequence, or stops at the first collision, having registered exactly the
commands before it, with one logged error and `sys.exit(1)`. -/
theorem addCommandsLoop_eq (l : List (String × Command)) (app : Flask) :
    addCommandsLoop app l =
      match findCollision app.cliCommands l with
      | none =>
        { app := { app with cliCommands := dupdate app.cliCommands l },
          log := [], exitCode := none }
      | some pc =>
        { app := { app with cliCommands := dupdate app.cliCommands pc.1 },
          log := [cliErrMsg pc.2], exitCode := some 1 } := by
  induction l generalizing app with
  | nil => simp [addCommandsLoop, findCollision, dupdate_nil]
  | cons p rest ih =>
    obtain ⟨name, command⟩ := p
    by_cases hm : dmem app.cliCommands name
    · simp [addCommandsLoop, findCollision, hm, dupdate_nil]
    · have hm2 : dmem app.cliCommands name = false := by
        simpa using hm
      have ih2 := ih { app with cliCommands := dinsert app.cliCommands name command }
      cases hfc : findCollision (dinsert app.cliCommands name command) rest with
      | none =>
        simp only [hfc] at ih2
        simp [addCommandsLoop, findCollision, hm2, hfc, ih2, dupdate_cons]
      | some pc =>
        simp only [hfc] at ih2
        simp [addCommandsLoop, findCollision, hm2, hfc, ih2, dupdate_cons]

/-- The loop accepts the whole sequence exactly when the collected names are
pairwise distinct and none is already registered. -/
theorem findCollision_eq_none_iff (l : List (String × Command))
    (d : List (String × Command)) :
    findCollision d l = none ↔
      ((l.map Prod.fst).Nodup ∧ ∀ p ∈ l, dmem d p.1 = false) := by
  induction l generalizing d with
  | nil => simp [findCollision]
  | cons p rest ih =>
    obtain ⟨name, command⟩ := p
    constructor
    · intro h
      rw [findCollision] at h
      by_cases hm : dmem d name
      · simp [hm] at h
      · have hm2 : dmem d name = false := by simpa using hm
        simp only [hm2, Bool.false_eq_true, if_false] at h
        have h3 : findCollision (dinsert d name command) rest = none := by
          cases hfc : findCollision (dinsert d name command) rest with
          | none => rfl
          | some pc =>
            rw [hfc] at h
            simp at h
        have h2 := (ih (dinsert d name command)).mp h3
        constructor
        · rw [List.map_cons, List.nodup_cons]
          constructor
          · intro hmem
            obtain ⟨q, hq, hq1⟩ := List.mem_map.mp hmem
            have := h2.2 q hq
            rw [dmem_dinsert] at this
            have hb : (name == q.1) = true := beq_iff_eq.mpr hq1.symm
            simp [hb] at this
          · exact h2.1
        · intro q hq
          rcases List.mem_cons.mp hq with hq | hq
          · rw [hq]
            exact hm2
          · have := h2.2 q hq
            rw [dmem_dinsert] at this
            simp at this
            exact this.2
    · intro h
      rw [List.map_cons, List.nodup_cons] at h
      obtain ⟨⟨hnm, hnd⟩, hall⟩ := h
      have hm2 : dmem d name = false := hall _ (List.mem_cons_self _ _)
      rw [findCollision]
      simp only [hm2, Bool.false_eq_true, if_false]
      have hnone : findCollision (dinsert d name command) rest = none := by
        refine (ih (dinsert d name command)).mpr ⟨hnd, ?_⟩
        intro q hq
        rw [dmem_dinsert]
        have h1 : (name == q.1) = false := by
          refine beq_eq_false_iff_ne.mpr ?_
          intro he
          refine hnm ?_
          rw [he]
          exact List.mem_map.mpr ⟨q, hq, rfl⟩
        have h2 : dmem d q.1 = false := hall _ (List.mem_cons_of_mem _ hq)
        simp [h1, h2]
      rw [hnone]
      rfl

/-- A name list with the same name at two positions is not nodup. -/
theorem not_nodup_double (K₁ K₂ K₃ : List String) (n : String) :
    ¬ (K₁ ++ n :: (K₂ ++ n :: K₃)).Nodup := by
  intro h
  have h2 := h.of_append_right
  rw [List.nodup_cons] at h2
  exact h2.1 (List.mem_append_right _ (List.mem_cons_self _ _))

/-- Characterization of `register_cli_commands`: it either registers the whole
collected sequence, or stops at the first collision with one logged error and
exit code 1, keeping the commands accepted before it. -/
theorem register_cli_commands_eq (topLevel : List (String × Command))
    (app : Flask) :
    register_cli_commands topLevel app =
      match findCollision app.cliCommands (collectCommands topLevel app.bundles) with
      | none =>
        { app := { app with
            cliCommands :=
              dupdate app.cliCommands (collectCommands topLevel app.bundles),
            trace := app.trace ++ [Stage.cli] },
          log := [], exitCode := none }
      | some pc =>
        { app := { app with
            cliCommands := dupdate app.cliCommands pc.1,
            trace := app.trace ++ [Stage.cli] },
          log := [cliErrMsg pc.2], exitCode := some 1 } := by
  have h := addCommandsLoop_eq (collectCommands topLevel app.bundles)
    { app with trace := app.trace ++ [Stage.cli] }
  rw [register_cli_commands, h]

/-- The stages before `register_cli_commands` compose to `preCliApp`. -/
theorem create_app_pre (cfg : Config) (bundles : List Bundle)
    (exts dexts : List (String × Extension)) :
    register_extensions
      (register_serializers
        (register_models
          (register_blueprints
            (register_extensions
              (configure_app
                { Flask_init with
                  bundles := bundles, trace := [Stage.populateBundles] } cfg)
              exts))))
      dexts = preCliApp cfg bundles exts dexts := by
  simp [configure_app, register_extensions, register_blueprints_eq,
    register_models_eq, register_serializers_eq, preCliApp, Flask_init]

/-- Characterization of `_create_app` as a whole: build the pre-CLI state,
then either finish via the CLI and shell-context stages, or exit at the first
CLI name collision. -/
theorem create_app_eq (cfg : Config) (bundles : List Bundle)
    (exts dexts : List (String × Extension))
    (topLevel : List (String × Command)) :
    _create_app cfg bundles exts dexts topLevel =
      match findCollision [] (collectCommands topLevel bundles) with
      | none =>
        { app := register_shell_context
            { preCliApp cfg bundles exts dexts with
              cliCommands := dupdate [] (collectCommands topLevel bundles),
              trace := (preCliApp cfg bundles exts dexts).trace ++ [Stage.cli] }
            (dupdate exts dexts),
          log := [], exitCode := none }
      | some pc =>
        { app := { preCliApp cfg bundles exts dexts with
            cliCommands := dupdate [] pc.1,
            trace := (preCliApp cfg bundles exts dexts).trace ++ [Stage.cli] },
          log := [cliErrMsg pc.2], exitCode := some 1 } := by
  rw [_create_app, create_app_pre, register_cli_commands_eq]
  have hb : (preCliApp cfg bundles exts dexts).bundles = bundles := rfl
  have hc : (preCliApp cfg bundles exts dexts).cliCommands = [] := rfl
  rw [hb, hc]
  cases hfc : findCollision [] (collectCommands topLevel bundles) with
  | none => rfl
  | some pc => rfl

/-- C1: for every bundle set containing two bundles that declare the same CLI
command name, `register_cli_commands` logs an error identifying the colliding
command name exactly once, terminates with exit code 1 (non-zero), and the
commands accepted before the collision remain registered (no rollback). -/
theorem C1_cli_collision_fatal (topLevel : List (String × Command))
    (app : Flask) (l₁ l₂ l₃ : List Bundle) (b₁ b₂ : Bundle)
    (hb : app.bundles = l₁ ++ b₁ :: (l₂ ++ b₂ :: l₃))
    (h₁ : b₁.has_command_group = true) (h₂ : b₂.has_command_group = true)
    (hn : b₁.command_group_name = b₂.command_group_name) :
    (register_cli_commands topLevel app).exitCode = some 1 ∧
    ∃ pc,
      findCollision app.cliCommands (collectCommands topLevel app.bundles) =
        some pc ∧
      (register_cli_commands topLevel app).log = [cliErrMsg pc.2] ∧
      (register_cli_commands topLevel app).app.cliCommands =
        dupdate app.cliCommands pc.1 := by
  have hne : findCollision app.cliCommands
      (collectCommands topLevel app.bundles) ≠ none := by
    intro h0
    obtain ⟨hnd, -⟩ := (findCollision_eq_none_iff _ _).mp h0
    rw [collectCommands, hb, List.filter_append, List.filter_cons_of_pos h₁,
      List.filter_append, List.filter_cons_of_pos h₂] at hnd
    simp only [List.map_append, List.map_cons, List.map_map] at hnd
    rw [hn, ← List.append_assoc] at hnd
    exact not_nodup_double _ _ _ _ hnd
  cases hfc : findCollision app.cliCommands
      (collectCommands topLevel app.bundles) with
  | none => exact absurd hfc hne
  | some pc =>
    rw [register_cli_commands_eq, hfc]
    exact ⟨rfl, pc, rfl, rfl, rfl⟩

/-- C1 witness: two concrete bundles both declaring command group `"seed"`. -/
theorem C1_witness :
    (register_cli_commands [] appC1).exitCode = some 1 ∧
    ∃ pc,
      findCollision appC1.cliCommands (collectCommands [] appC1.bundles) =
        some pc ∧
      (register_cli_commands [] appC1).log = [cliErrMsg pc.2] ∧
      (register_cli_commands [] appC1).app.cliCommands =
        dupdate appC1.cliCommands pc.1 :=
  C1_cli_collision_fatal [] appC1 [] [] [] bundleCmdA bundleCmdB rfl rfl rfl rfl

/-- C6: when the collected CLI command names are pairwise distinct and the
application's CLI surface starts empty, `register_cli_commands` does not exit,
logs nothing, and afterwards the CLI surface is exactly the collected
sequence: the top-level commands followed by every declaring bundle's command
group. -/
theorem C6_cli_unique_names_registered (topLevel : List (String × Command))
    (app : Flask) (hinit : app.cliCommands = [])
    (hnd : ((collectCommands topLevel app.bundles).map Prod.fst).Nodup) :
    (register_cli_commands topLevel app).exitCode = none ∧
    (register_cli_commands topLevel app).log = [] ∧
    (register_cli_commands topLevel app).app.cliCommands =
      collectCommands topLevel app.bundles := by
  have hnone : findCollision app.cliCommands
      (collectCommands topLevel app.bundles) = none := by
    refine (findCollision_eq_none_iff _ _).mpr ⟨hnd, ?_⟩
    intro p hp
    rw [hinit]
    rfl
  rw [register_cli_commands_eq, hnone]
  refine ⟨rfl, rfl, ?_⟩
  rw [hinit]
  have := dupdate_eq_append (collectCommands topLevel app.bundles)
    ([] : List (String × Command)) hnd (fun p hp => rfl)
  rw [this]
  rfl

/-- C6 witness: a top-level command `"db"` plus bundles declaring `"seed"` and
`"tasks"`. -/
theorem C6_witness :
    (register_cli_commands [("db", 80)] appC6).exitCode = none ∧
    (register_cli_commands [("db", 80)] appC6).log = [] ∧
    (register_cli_commands [("db", 80)] appC6).app.cliCommands =
      collectCommands [("db", 80)] appC6.bundles :=
  C6_cli_unique_names_registered [("db", 80)] appC6 rfl (by decide)

/-- C10: the loop of `register_cli_commands` checks each collected name
against the live registered-command set: a collected name already registered
on the application before the call is fatal, and a duplicate occurring later
within the collected sequence itself (each accepted command being added before
the next check) is fatal too. -/
theorem C10_cli_live_set_check (topLevel : List (String × Command))
    (app : Flask) :
    ((∃ p ∈ collectCommands topLevel app.bundles,
        dmem app.cliCommands p.1 = true) →
      (register_cli_commands topLevel app).exitCode = some 1) ∧
    (¬ ((collectCommands topLevel app.bundles).map Prod.fst).Nodup →
      (register_cli_commands topLevel app).exitCode = some 1) := by
  cases hfc : findCollision app.cliCommands
      (collectCommands topLevel app.bundles) with
  | none =>
    obtain ⟨hnd, hall⟩ := (findCollision_eq_none_iff _ _).mp hfc
    constructor
    · rintro ⟨p, hp, hmem⟩
      rw [hall p hp] at hmem
      cases hmem
    · intro h
      exact absurd hnd h
  | some pc =>
    rw [register_cli_commands_eq, hfc]
    exact ⟨fun _ => rfl, fun _ => rfl⟩

/-- C10 witness: a top-level command named `"run"` colliding with a pre-
registered command of that name, and a bundle pair colliding within the
collected sequence. -/
theorem C10_witness :
    (register_cli_commands [("run", 91)] appRun).exitCode = some 1 ∧
    (register_cli_commands [] appC1).exitCode = some 1 :=
  ⟨(C10_cli_live_set_check [("run", 91)] appRun).1
      ⟨("run", 91), by decide, by decide⟩,
    (C10_cli_live_set_check [] appC1).2 (by decide)⟩

/-- C2 counterexample: a bundle set in which two bundles declare the same
model name `"M"` and two bundles declare serializers with the same target
model name `"T"`, yet bootstrap completes (no fatal startup error):
`_create_app` returns with no exit code, the later-iterated classes silently
occupying the registries. -/
theorem C2_counterexample :
    (_create_app cfg0 [bundleM1, bundleM2, bundleSer1, bundleSer2] [] [] []).exitCode
        = none ∧
    dget (_create_app cfg0 [bundleM1, bundleM2, bundleSer1, bundleSer2] [] [] []).app.models
        "M" = some 2 ∧
    dget (_create_app cfg0 [bundleM1, bundleM2, bundleSer1, bundleSer2] [] [] []).app.serializers
        "T" = some serB := by
  refine ⟨rfl, ?_, ?_⟩ <;> decide

/-- C2 (amended): name uniqueness across bundles is enforced only for CLI
command names, where a collision is a fatal startup error (exit code 1); for
the model and serializer registries a collision is not an error — bootstrap
completes and the later-iterated bundle's entry silently wins. -/
theorem C2_amended_uniqueness_only_cli (cfg : Config) (bundles : List Bundle)
    (exts dexts : List (String × Extension))
    (topLevel : List (String × Command)) :
    (¬ ((collectCommands topLevel bundles).map Prod.fst).Nodup →
      (_create_app cfg bundles exts dexts topLevel).exitCode = some 1) ∧
    (findCollision [] (collectCommands topLevel bundles) = none →
      (_create_app cfg bundles exts dexts topLevel).exitCode = none ∧
      (∀ n c l₁ l₂, allModelPairs bundles = l₁ ++ (n, c) :: l₂ →
        (∀ p ∈ l₂, p.1 ≠ n) →
        dget (_create_app cfg bundles exts dexts topLevel).app.models n = some c) ∧
      (∀ S nm l₁ l₂, allSerializerPairs bundles = l₁ ++ (nm, S) :: l₂ →
        (∀ p ∈ l₂, p.2.targetModelName ≠ S.targetModelName) →
        dget (_create_app cfg bundles exts dexts topLevel).app.serializers
          S.targetModelName = some S)) := by
  constructor
  · intro h
    cases hfc : findCollision [] (collectCommands topLevel bundles) with
    | none =>
      obtain ⟨hnd, -⟩ := (findCollision_eq_none_iff _ _).mp hfc
      exact absurd hnd h
    | some pc =>
      rw [create_app_eq, hfc]
  · intro hok
    rw [create_app_eq, hok]
    refine ⟨rfl, ?_, ?_⟩
    · intro n c l₁ l₂ hdec hl
      show dget (dupdate [] (allModelPairs bundles)) n = some c
      rw [hdec]
      exact dget_dupdate_decomp _ _ _ _ _ hl
    · intro S nm l₁ l₂ hdec hl
      show dget (dupdate [] ((allSerializerPairs bundles).map serKey))
        S.targetModelName = some S
      rw [hdec, List.map_append, List.map_cons]
      refine dget_dupdate_decomp _ _ _ _ _ ?_
      intro p hp
      obtain ⟨q, hq, hqe⟩ := List.mem_map.mp hp
      rw [← hqe]
      exact hl q hq

/-- C2 witness: a CLI name collision exits with code 1, while a model-name
collision completes bootstrap with the later class in place. -/
theorem C2_witness :
    (_create_app cfg0 [bundleCmdA, bundleCmdB] [] [] []).exitCode = some 1 ∧
    (_create_app cfg0 [bundleM1, bundleM2] [] [] []).exitCode = none ∧
    dget (_create_app cfg0 [bundleM1, bundleM2] [] [] []).app.models "M" =
      some 2 := by
  refine ⟨(C2_amended_uniqueness_only_cli cfg0 [bundleCmdA, bundleCmdB] [] [] []).1
    (by decide), ?_, ?_⟩
  · exact ((C2_amended_uniqueness_only_cli cfg0 [bundleM1, bundleM2] [] [] []).2
      (by decide)).1
  · exact ((C2_amended_uniqueness_only_cli cfg0 [bundleM1, bundleM2] [] [] []).2
      (by decide)).2.1 "M" 2 [("M", 1)] [] rfl (by decide)

/-- C3: `register_serializers` stores each serializer class under its declared
target model's name (`Meta.model.__name__`), and creates no entry under any
name that is not some serializer's target model name — in particular none
under the serializer's own class name. -/
theorem C3_serializer_keyed_by_target (app : Flask) (S : SerializerClass)
    (nm : String) (l₁ l₂ : List (String × SerializerClass))
    (hdec : allSerializerPairs app.bundles = l₁ ++ (nm, S) :: l₂)
    (hlast : ∀ p ∈ l₂, p.2.targetModelName ≠ S.targetModelName) :
    dget (register_serializers app).serializers S.targetModelName = some S ∧
    ∀ k, (∀ p ∈ allSerializerPairs app.bundles, p.2.targetModelName ≠ k) →
      dget (register_serializers app).serializers k = none := by
  rw [register_serializers_eq]
  constructor
  · show dget (dupdate [] ((allSerializerPairs app.bundles).map serKey))
      S.targetModelName = some S
    rw [hdec, List.map_append, List.map_cons]
    refine dget_dupdate_decomp _ _ _ _ _ ?_
    intro p hp
    obtain ⟨q, hq, hqe⟩ := List.mem_map.mp hp
    rw [← hqe]
    exact hlast q hq
  · intro k hk
    show dget (dupdate [] ((allSerializerPairs app.bundles).map serKey)) k = none
    rw [dget_dupdate_of_not_mem]
    · rfl
    · intro p hp
      obtain ⟨q, hq, hqe⟩ := List.mem_map.mp hp
      rw [← hqe]
      exact hk q hq

/-- C3 witness: `FooSerializer` with `Meta.model.__name__ == "Bar"` lands
under key `"Bar"`, and no `"FooSerializer"` key exists. -/
theorem C3_witness :
    dget (register_serializers appSer).serializers "Bar" = some fooSerializer ∧
    dget (register_serializers appSer).serializers "FooSerializer" = none := by
  have h := C3_serializer_keyed_by_target appSer fooSerializer "FooSerializer"
    [] [] rfl (by decide)
  exact ⟨h.1, h.2 "FooSerializer" (by decide)⟩

/-- C4: when several bundles declare the same model name, after
`register_models` the entry holds exactly the class written last in bundle
iteration order (last writer wins, no error); the same precedence holds for
`register_serializers` on colliding serializer keys (target model names). -/
theorem C4_last_writer_wins (app : Flask) :
    (∀ n c l₁ l₂, allModelPairs app.bundles = l₁ ++ (n, c) :: l₂ →
      (∀ p ∈ l₂, p.1 ≠ n) →
      dget (register_models app).models n = some c) ∧
    (∀ S nm l₁ l₂, allSerializerPairs app.bundles = l₁ ++ (nm, S) :: l₂ →
      (∀ p ∈ l₂, p.2.targetModelName ≠ S.targetModelName) →
      dget (register_serializers app).serializers S.targetModelName = some S) := by
  constructor
  · intro n c l₁ l₂ hdec hl
    rw [register_models_eq]
    show dget (dupdate [] (allModelPairs app.bundles)) n = some c
    rw [hdec]
    exact dget_dupdate_decomp _ _ _ _ _ hl
  · intro S nm l₁ l₂ hdec hl
    rw [register_serializers_eq]
    show dget (dupdate [] ((allSerializerPairs app.bundles).map serKey))
      S.targetModelName = some S
    rw [hdec, List.map_append, List.map_cons]
    refine dget_dupdate_decomp _ _ _ _ _ ?_
    intro p hp
    obtain ⟨q, hq, hqe⟩ := List.mem_map.mp hp
    rw [← hqe]
    exact hl q hq

/-- C4 witness: colliding model name `"M"` resolves to the later class `2`;
colliding serializer target `"T"` resolves to the later class `serB`. -/
theorem C4_witness :
    dget (register_models appMM).models "M" = some 2 ∧
    dget (register_serializers appSer2).serializers "T" = some serB :=
  ⟨(C4_last_writer_wins appMM).1 "M" 2 [("M", 1)] [] rfl (by decide),
    (C4_last_writer_wins appSer2).2 serB "BSerializer" [("ASerializer", serA)]
      [] rfl (by decide)⟩

/-- C5: `_create_app` runs the bootstrap stages in exactly the fixed order
populate bundles → configure → base extensions → blueprints → models →
serializers → deferred extensions → CLI → shell context (no stage reordered or
skipped), and the migration locations configuration is computed from the
bundle list populated before `configure_app` runs. -/
theorem C5_bootstrap_order (cfg : Config) (bundles : List Bundle)
    (exts dexts : List (String × Extension))
    (topLevel : List (String × Command))
    (hok : findCollision [] (collectCommands topLevel bundles) = none) :
    (_create_app cfg bundles exts dexts topLevel).app.trace =
      [Stage.populateBundles, Stage.configure, Stage.extensions,
        Stage.blueprints, Stage.models, Stage.serializers, Stage.extensions,
        Stage.cli, Stage.shellContext] ∧
    (_create_app cfg bundles exts dexts topLevel).app.configAlembicVersionLocations =
      bundles.map (fun b => (b.name, migrationPath cfg.projectRoot b)) ∧
    (_create_app cfg bundles exts dexts topLevel).app.initializedExtensions =
      exts.map Prod.snd ++ dexts.map Prod.snd ∧
    (_create_app cfg bundles exts dexts topLevel).exitCode = none := by
  rw [create_app_eq, hok]
  exact ⟨rfl, rfl, rfl, rfl⟩

/-- C5 witness: the empty bundle set with no extensions and no top-level
commands boots through all nine stage events in order. -/
theorem C5_witness :
    (_create_app cfg0 [] [] [] []).app.trace =
      [Stage.populateBundles, Stage.configure, Stage.extensions,
        Stage.blueprints, Stage.models, Stage.serializers, Stage.extensions,
        Stage.cli, Stage.shellContext] ∧
    (_create_app cfg0 [] [] [] []).app.configAlembicVersionLocations =
      ([] : List Bundle).map (fun b => (b.name, migrationPath cfg0.projectRoot b)) ∧
    (_create_app cfg0 [] [] [] []).app.initializedExtensions =
      ([] : List (String × Extension)).map Prod.snd ++
        ([] : List (String × Extension)).map Prod.snd ∧
    (_create_app cfg0 [] [] [] []).exitCode = none :=
  C5_bootstrap_order cfg0 [] [] [] [] rfl

/-- The head surviving a `dropWhile` does not satisfy the dropped predicate.
-/
theorem dropWhile_head_false {α : Type} (p : α → Bool) (l : List α) (a : α)
    (h : (l.dropWhile p).head? = some a) : p a = false := by
  induction l with
  | nil => cases h
  | cons b rest ih =>
    by_cases hb : p b = true
    · rw [List.dropWhile_cons_of_pos hb] at h
      exact ih h
    · have hb2 : p b = false := by simpa using hb
      rw [List.dropWhile_cons_of_neg (by simp [hb2])] at h
      rw [List.head?_cons] at h
      cases h
      exact hb2

/-- The effective prefix never ends in a slash: `rstrip('/')` removed them
all. -/
theorem effectiveUrlPrefix_no_trailing_slash (p : Option String) :
    (effectiveUrlPrefix p).data.getLast? ≠ some '/' := by
  intro h
  rw [effectiveUrlPrefix, rstripSlash] at h
  have h2 : ((((pyOrEmpty p).data.reverse).dropWhile
      (fun ch => ch == '/')).reverse).getLast? = some '/' := h
  rw [List.getLast?_reverse] at h2
  have h3 := dropWhile_head_false (fun ch => ch == '/') _ _ h2
  simp at h3

/-- C7: `register_blueprints` attaches every blueprint with the declared URL
prefix stripped of trailing slashes — `"/api/"` becomes `"/api"`, while `""`
and `None` stay the empty (absent) prefix — and no attached prefix ends in a
slash. -/
theorem C7_url_prefix_stripped (app : Flask) (bp : Blueprint) (pre : String)
    (h0 : app.registeredBlueprints = [])
    (hmem : (bp, pre) ∈ (register_blueprints app).registeredBlueprints) :
    pre = effectiveUrlPrefix bp.urlPrefix ∧
    pre.data.getLast? ≠ some '/' ∧
    effectiveUrlPrefix (some "/api/") = "/api" ∧
    effectiveUrlPrefix (some "") = "" ∧
    effectiveUrlPrefix none = "" := by
  rw [register_blueprints_eq] at hmem
  have hmem2 : (bp, pre) ∈
      (allBlueprints app.bundles).map
        (fun b => (b, effectiveUrlPrefix b.urlPrefix)) := by
    have : ({ app with
        urlMapStrictSlashes :=
          if (app.configStrictSlashes.getD false) = false then false
          else app.urlMapStrictSlashes,
        registeredBlueprints := app.registeredBlueprints ++
          (allBlueprints app.bundles).map
            (fun b => (b, effectiveUrlPrefix b.urlPrefix)),
        trace := app.trace ++ [Stage.blueprints] } : Flask).registeredBlueprints =
        app.registeredBlueprints ++
          (allBlueprints app.bundles).map
            (fun b => (b, effectiveUrlPrefix b.urlPrefix)) := rfl
    rw [this, h0] at hmem
    simpa using hmem
  obtain ⟨b, hbmem, hbe⟩ := List.mem_map.mp hmem2
  have hbp : b = bp := congrArg Prod.fst hbe
  have hpre : pre = effectiveUrlPrefix bp.urlPrefix := by
    have := congrArg Prod.snd hbe
    rw [hbp] at this
    exact this.symm
  refine ⟨hpre, ?_, by decide, by decide, by decide⟩
  rw [hpre]
  exact effectiveUrlPrefix_no_trailing_slash bp.urlPrefix

/-- C7 witness: the concrete blueprint declared with prefix `"/api/"` is
attached with prefix `"/api"`. -/
theorem C7_witness :
    "/api" = effectiveUrlPrefix bpApi.urlPrefix ∧
    ("/api" : String).data.getLast? ≠ some '/' ∧
    effectiveUrlPrefix (some "/api/") = "/api" ∧
    effectiveUrlPrefix (some "") = "" ∧
    effectiveUrlPrefix none = "" :=
  C7_url_prefix_stripped appBp bpApi "/api" rfl (by decide)

/-- C8: after `configure_app`, every inbound request leaves the session marked
permanent and modified, and every outbound response carries a `csrf_token`
cookie holding the token freshly generated for that response. -/
theorem C8_request_hooks (app : Flask) (cfg : Config) (s : Session)
    (tok : String) (r : Response)
    (hb : app.beforeRequestHooks = []) (ha : app.afterRequestHooks = []) :
    (handle_request (configure_app app cfg) s).permanent = true ∧
    (handle_request (configure_app app cfg) s).modified = true ∧
    dget (finalize_response (configure_app app cfg) tok r).cookies
      "csrf_token" = some tok := by
  refine ⟨?_, ?_, ?_⟩ <;>
    simp [handle_request, finalize_response, configure_app, hb, ha,
      enable_session_timeout, set_csrf_cookie, responseTruthy, dget_dinsert]

/-- C8 witness: a fresh app, session, and cookieless response. -/
theorem C8_witness :
    (handle_request (configure_app Flask_init cfg0) sess0).permanent = true ∧
    (handle_request (configure_app Flask_init cfg0) sess0).modified = true ∧
    dget (finalize_response (configure_app Flask_init cfg0) "tok" resp0).cookies
      "csrf_token" = some "tok" :=
  C8_request_hooks Flask_init cfg0 sess0 "tok" resp0 rfl rfl

/-- C9: the registered shell-context producer captures the extensions mapping
at registration time, and on each invocation builds a fresh mapping from the
invocation-time `app.models` and `app.serializers`, merged in the order
extensions, then models, then serializers, with later merges overriding
earlier ones on key collision. -/
theorem C9_shell_context (app : Flask) (exts : List (String × Extension)) :
    (register_shell_context app exts).shellContextExtensions = some exts ∧
    ∀ a : Flask, ∀ k : String,
      (exts.map Prod.fst).Nodup →
      (a.models.map Prod.fst).Nodup →
      (a.serializers.map Prod.fst).Nodup →
      dget (shell_context exts a) k =
        match dget a.serializers k with
        | some sc => some (ShellValue.ser sc)
        | none =>
          match dget a.models k with
          | some mc => some (ShellValue.model mc)
          | none => (dget exts k).map ShellValue.ext := by
  refine ⟨rfl, ?_⟩
  intro a k hext hmod hser
  have keyse : ((exts.map (fun p => (p.1, ShellValue.ext p.2))).map Prod.fst).Nodup := by
    rw [List.map_map]
    exact hext
  have keysm : ((a.models.map (fun p => (p.1, ShellValue.model p.2))).map Prod.fst).Nodup := by
    rw [List.map_map]
    exact hmod
  have keyss : ((a.serializers.map (fun p => (p.1, ShellValue.ser p.2))).map Prod.fst).Nodup := by
    rw [List.map_map]
    exact hser
  show dget (dupdate (dupdate (dupdate []
      (exts.map (fun p => (p.1, ShellValue.ext p.2))))
      (a.models.map (fun p => (p.1, ShellValue.model p.2))))
      (a.serializers.map (fun p => (p.1, ShellValue.ser p.2)))) k =
    match dget a.serializers k with
    | some sc => some (ShellValue.ser sc)
    | none =>
      match dget a.models k with
      | some mc => some (ShellValue.model mc)
      | none => (dget exts k).map ShellValue.ext
  rw [dget_dupdate_nodup _ _ _ keyss, dget_map, dget_dupdate_nodup _ _ _ keysm,
    dget_map, dget_dupdate_nodup _ _ _ keyse, dget_map]
  cases dget a.serializers k with
  | some sc => rfl
  | none =>
    cases dget a.models k with
    | some mc => rfl
    | none =>
      cases dget exts k with
      | some e => rfl
      | none => rfl

/-- C9 witness: with extension `"db"`, models `"db"` and `"M"`, and a
serializer under `"M"`, the producer resolves `"M"` to the serializer and
`"db"` to the model, and the captured extensions are returned intact. -/
theorem C9_witness :
    (register_shell_context appShell exts0).shellContextExtensions = some exts0 ∧
    dget (shell_context exts0 appShell) "M" = some (ShellValue.ser serA) ∧
    dget (shell_context exts0 appShell) "db" = some (ShellValue.model 7) := by
  have h := C9_shell_context appShell exts0
  refine ⟨h.1, ?_, ?_⟩
  · rw [h.2 appShell "M" (by decide) (by decide) (by decide)]
    decide
  · rw [h.2 appShell "db" (by decide) (by decide) (by decide)]
    decide
